import Mathlib

/-!
Shallow embedding of the `dialog` package (src/dialog.go): a set of dialog
node kinds (message, pause, menu, input, checklist, program output) that
each build an argument list for the external `dialog` program, invoke it,
parse the result and compute the next node.

Effects are made explicit:
  * the invocation of the external program (`run` / `runStdin` in the Go
    source) is an oracle `List String → RunRes` mapping the built command
    argument list to the text captured on the auxiliary output channel and
    the process error, if any;
  * the terminal-size query (`terminal.GetSize`) is a value
    `Option (Int × Int)` — `none` models a failing query;
  * caller-owned result cells (`*string` / `*bool` pointers) are stored as
    `Option` fields of the node (`none` models a nil pointer); a `Run` step
    returns the node with its cells updated;
  * thunks (`func() string`, `func() ([]MenuOption, error)`,
    `func(io.WriteCloser) error`) are replaced by the value they produce at
    this visit (`none` models a nil function pointer where the code checks
    for one).
-/

namespace DialogGo

/-- DIALOG_PROC constant from the source (the external program name). -/
def DIALOG_PROC : String := "dialog"

/-- DEFAULT_HEIGHT constant from the source. -/
def DEFAULT_HEIGHT : Int := 20

/-- DEFAULT_WIDTH constant from the source. -/
def DEFAULT_WIDTH : Int := 60

/-- DEFAULT_MENU_HEIGHT constant from the source (never read by any method). -/
def DEFAULT_MENU_HEIGHT : Int := 15

/-- DefaultTitle package variable from the source. -/
def DefaultTitle : String := "Title"

/-- Error values surfaced by `Run`. Go errors are plain values; the
constructors record where the error was produced. `UnmatchedSelection k`
models `fmt.Errorf("returned option ... not found", k)` and carries the
unmatched key; `PreconditionFailure` carries the exact message string of the
corresponding `fmt.Errorf` call; `SpawnFailure` and `External` stand for
errors coming from the subprocess and from caller-supplied callbacks
(options supplier, program producer). -/
inductive Err where
  | SpawnFailure (msg : String)
  | PreconditionFailure (msg : String)
  | UnmatchedSelection (key : String)
  | External (msg : String)
deriving DecidableEq, Repr

/-- Result of one invocation of the external program: the text drained from
the auxiliary output channel and the process error, mirroring the
`(string, error)` pair returned by `run` / `runStdin`. -/
structure RunRes where
  out : String
  err : Option Err
deriving DecidableEq, Repr

/-- Outcome of the terminal-size query: `some (w, h)` on success. -/
abbrev ScreenSize := Option (Int × Int)

/-- The `Common` struct embedded in every dialog node. -/
structure Common where
  DialogRc : String
  Title : String
  Width : Int
  Height : Int
deriving DecidableEq, Repr

/-- Method `(c *Common) title()`. -/
def Common.title (c : Common) : String :=
  if c.Title ≠ "" then c.Title else DefaultTitle

/-- Method `(c *Common) width()`: positive values verbatim, negative values
offset from the queried screen width, otherwise the default (also when the
query fails). -/
def Common.width (c : Common) (ts : ScreenSize) : Int :=
  if c.Width > 0 then c.Width
  else
    if c.Width < 0 then
      match ts with
      | some wh => wh.1 + c.Width
      | none => DEFAULT_WIDTH
    else DEFAULT_WIDTH

/-- Method `(c *Common) height()`: same shape as `width`, using the queried
screen height. -/
def Common.height (c : Common) (ts : ScreenSize) : Int :=
  if c.Height > 0 then c.Height
  else
    if c.Height < 0 then
      match ts with
      | some wh => wh.2 + c.Height
      | none => DEFAULT_HEIGHT
    else DEFAULT_HEIGHT

/-- Method `(c *Common) runArgs()`. -/
def Common.runArgs (c : Common) : List String :=
  ["--title", c.title]

/-- The fixed prefix added by `run` / `runStdin`: the flag directing the
external program to write its result to file descriptor 3 (the auxiliary
output channel). -/
def cmdArgs (args : List String) : List String :=
  ["--output-fd", "3"] ++ args

/-- One checklist row: label and caller-owned boolean cell (`*bool`;
`none` models a nil pointer). -/
structure CheckListItem where
  Name : String
  Value : Option Bool
deriving DecidableEq, Repr

/-- MenuOption, parameterised by the dialog type to break the mutual
recursion (`MenuOption` below instantiates δ with `Dialog`). `CrumbText`
is the optional crumb-text producer, modelled by the string it returns
(`none` models a nil function). -/
structure MenuOptionF (δ : Type) where
  Key : String
  Text : String
  Next : δ
  NextDefaultKey : String
  CrumbText : Option String

/-- The dialog node variants. Each constructor carries the fields of the
corresponding Go struct, with thunks replaced by the value they produce at
this visit and nil-able pointers by `Option`:
  * `MsgBox`, `Pause`: text and optional next sibling;
  * `Menu`: the `Options` field holds the outcome of calling the supplier
    at this visit (`Except.error e` when the supplier fails);
  * `InputBox`: `Value` is the caller-owned string cell; `Validate` is the
    optional validator callback;
  * `CheckListBox`: per-item boolean cells inside `Items`;
  * `ProgramBox`: `Program` is `none` when the producer callback is nil,
    and otherwise `some p` where `p : Option Err` is the error the producer
    eventually reports through its completion channel;
  * `ChildDialog`: the struct returned by a menu selection — the embedded
    child dialog, the crumb text, and the back-reference to the parent menu
    and the selected option. -/
inductive Dialog where
  | MsgBox (c : Common) (Text : String) (NextSibling : Option Dialog)
  | Pause (c : Common) (Text : String) (Seconds : Int) (NextSibling : Option Dialog)
  | Menu (c : Common) (Text : Option String) (MenuHeight : Int) (DefaultKey : String)
      (Options : Except Err (List (MenuOptionF Dialog)))
  | InputBox (c : Common) (Text : Option String) (Value : Option String)
      (Validate : Option (String → String × Bool)) (NextSibling : Option Dialog)
  | CheckListBox (c : Common) (Text : Option String) (Items : List CheckListItem)
      (Validate : Option (String → String × Bool)) (NextSibling : Option Dialog)
  | ProgramBox (c : Common) (Text : String) (Program : Option (Option Err))
      (Next : Option Dialog)
  | ChildDialog (d : Dialog) (Crumb : String) (ParentMenu : Dialog)
      (Opt : MenuOptionF Dialog)

/-- MenuOption from the source. -/
abbrev MenuOption := MenuOptionF Dialog

/-- Result of one `Run` step: the returned next dialog (`none` both on
error and when the configured sibling is absent), the returned error, and
the node as it stands after the call (its caller-owned cells possibly
updated through their pointers). -/
structure StepResult where
  next : Option Dialog
  err : Option Err
  post : Dialog

/-- Command argument list built by `(m *MsgBox) Run` (breadcrumbs unused),
including the prefix added by `run`. -/
def msgBoxCmdArgs (c : Common) (ts : ScreenSize) (text : String) : List String :=
  cmdArgs (c.runArgs ++
    ["--msgbox", text, toString (c.height ts), toString (c.width ts)])

/-- Command argument list built by `(m *Pause) Run`. The Go literal
`"\\n"` is the two characters backslash and n, a separator interpreted by
the external program. -/
def pauseCmdArgs (c : Common) (ts : ScreenSize) (text : String) (seconds : Int)
    (crumbs : String) : List String :=
  cmdArgs (c.runArgs ++
    ["--pause", crumbs ++ "\\n" ++ text, toString (c.height ts),
     toString (c.width ts), toString seconds])

/-- Method `(m *Menu) menuHeight(optlen)`: the configured value when
positive, otherwise the option count. -/
def menuHeight (mh : Int) (optlen : Nat) : Int :=
  if mh > 0 then mh else (optlen : Int)

/-- The `--menu` text: breadcrumbs, with the text supplier output appended
after the separator when the supplier is configured. -/
def menuText (text : Option String) (crumbs : String) : String :=
  match text with
  | none => crumbs
  | some t => crumbs ++ "\\n" ++ t

/-- Command argument list built by `(m *Menu) Run`: base args, the
conditional default-item flag, the `--menu` block, then the option
key/label pairs appended by the loop (modelled by `foldl`, mirroring the
repeated `append`). -/
def menuCmdArgs (c : Common) (ts : ScreenSize) (text : Option String) (mh : Int)
    (dk : String) (opts : List MenuOption) (crumbs : String) : List String :=
  let args := c.runArgs
  let args := if dk ≠ "" then args ++ ["--default-item", dk] else args
  let args := args ++
    ["--menu", menuText text crumbs, toString (c.height ts),
     toString (c.width ts), toString (menuHeight mh opts.length)]
  cmdArgs (opts.foldl (fun a mo => a ++ [mo.Key, mo.Text]) args)

/-- Command argument list built by `(m *InputBox) Run` (after its
precondition checks passed, so the cell value `v` and the text `t` are
available). -/
def inputCmdArgs (c : Common) (ts : ScreenSize) (t : String) (v : String)
    (crumbs : String) : List String :=
  cmdArgs (c.runArgs ++
    ["--inputbox", crumbs ++ "\\n" ++ t, toString (c.height ts),
     toString (c.width ts), v])

/-- Method `(m *CheckListBox) itemArgs()`: per item, the positional index
as tag, the label, and `on`/`off` from the current cell value. It is only
called after `Run` checked every cell for nil, so the `getD false` default
is never reached there. The Go loop accumulates with `append`, modelled by
`foldl` over the enumerated items. -/
def itemArgs (items : List CheckListItem) : List String :=
  items.enum.foldl
    (fun ret p =>
      ret ++ [toString p.1, p.2.Name, if p.2.Value.getD false then "on" else "off"])
    []

/-- Command argument list built by `(m *CheckListBox) Run` (after its
precondition checks passed). -/
def checkListCmdArgs (c : Common) (ts : ScreenSize) (t : String)
    (items : List CheckListItem) (crumbs : String) : List String :=
  cmdArgs (c.runArgs ++
    ["--checklist", crumbs ++ "\\n" ++ t, toString (c.height ts),
     toString (c.width ts), toString items.length] ++ itemArgs items)

/-- Command argument list built by `(m *ProgramBox) Run`. -/
def programCmdArgs (c : Common) (ts : ScreenSize) (text : String)
    (crumbs : String) : List String :=
  cmdArgs (c.runArgs ++
    ["--programbox", crumbs ++ "\\n" ++ text, toString (c.height ts),
     toString (c.width ts)])

/-- The option-matching loop in `(m *Menu) Run`: first option whose `Key`
equals the returned key, by exact string equality. -/
def findOption : List MenuOption → String → Option MenuOption
  | [], _ => none
  | mo :: rest, k => if mo.Key = k then some mo else findOption rest k

/-- The crumb function attached to the returned `ChildDialog`: the
explicitly supplied producer when present, otherwise a producer returning
the option label (modelled by the produced string). -/
def crumbOf (mo : MenuOption) : String :=
  match mo.CrumbText with
  | some s => s
  | none => mo.Text

/-- Whitespace class of the RE2 pattern in the source: tab, newline, form
feed, carriage return, space. -/
def isRegexSpace (c : Char) : Bool :=
  c = '\t' ∨ c = '\n' ∨ c = '\x0c' ∨ c = '\r' ∨ c = ' '

/-- ASCII whitespace trimmed by `strings.TrimSpace` (the regex set plus
vertical tab; non-ASCII Unicode spaces are out of scope of the claims). -/
def isGoWhitespace (c : Char) : Bool :=
  c = '\t' ∨ c = '\n' ∨ c = '\x0b' ∨ c = '\x0c' ∨ c = '\r' ∨ c = ' '

/-- Model of `strings.TrimSpace`: drop leading and trailing whitespace. -/
def goTrimSpace (s : String) : String :=
  String.mk (((s.data.dropWhile isGoWhitespace).reverse.dropWhile isGoWhitespace).reverse)

/-- Split a character list at every whitespace character; `acc` holds the
reversed current piece. Pieces between adjacent separators are empty. -/
def splitAuxCh : List Char → List Char → List (List Char)
  | [], acc => [acc.reverse]
  | c :: rest, acc =>
    if isRegexSpace c then acc.reverse :: splitAuxCh rest []
    else splitAuxCh rest (c :: acc)

/-- Model of the token split in `(m *CheckListBox) Run`:
`regexp.MustCompile(..).Split(strings.TrimSpace(k), -1)` splitting on runs
of whitespace. Splitting at each whitespace character yields the same
tokens plus possibly empty strings between adjacent separators; empty
strings fail integer parsing below, exactly as in the source where the
regex never produces them on a trimmed input. -/
def splitTokens (k : String) : List String :=
  (splitAuxCh (goTrimSpace k).data []).map String.mk

/-- Decimal digit run for `goAtoi`: fails on an empty list or any
non-digit character. -/
def parseDigits (cs : List Char) : Option Nat :=
  if cs.isEmpty then none
  else
    cs.foldl
      (fun acc c =>
        match acc with
        | none => none
        | some n => if '0' ≤ c ∧ c ≤ '9' then some (n * 10 + (c.toNat - 48)) else none)
      (some 0)

/-- Model of `strconv.Atoi`: optional sign, then one or more decimal
digits. Values past the machine-int range make Go report an error; here
they parse to their mathematical value, which the range filter in
`parseIndices` rejects just the same, so the selected-index set is
unchanged. -/
def goAtoi (s : String) : Option Int :=
  match s.data with
  | [] => none
  | c :: rest =>
    if c = '-' then (parseDigits rest).map (fun n => -(n : Int))
    else if c = '+' then (parseDigits rest).map (fun n => (n : Int))
    else (parseDigits (c :: rest)).map (fun n => (n : Int))

/-- Body of the parse loop in `(m *CheckListBox) Run`: a parsed value is
kept when it lies within `[0, n)`; a failed parse is dropped. -/
def selTokAux (n : Nat) : Option Int → Option Nat
  | some vi => if 0 ≤ vi ∧ vi < (n : Int) then some vi.toNat else none
  | none => none

/-- The parse loop in `(m *CheckListBox) Run`: tokens that parse as an
integer within `[0, n)` become selected indices; other tokens are dropped.
The Go code accumulates a set (`map[int]bool`); list membership models it. -/
def parseIndices (k : String) (n : Nat) : List Nat :=
  (splitTokens k).filterMap (fun v => selTokAux n (goAtoi v))

/-- The cell-update loop in `(m *CheckListBox) Run`:
`*item.Value = setIndices[i]` for each item, i.e. each cell becomes the
membership of its index in the selected set. -/
def updateCells (start : Nat) (items : List CheckListItem) (sel : List Nat) :
    List CheckListItem :=
  match items with
  | [] => []
  | it :: rest => { it with Value := some (decide (start ∈ sel)) } :: updateCells (start + 1) rest sel

/-- One navigation step (`Run(crumbs)` on each variant). `ts` is the
outcome of the terminal-size query, `oracle` the external-program
invocation (applied to the full command argument list, as in `run` /
`runStdin`). Validators on `InputBox` / `CheckListBox` are invoked in the
source but their outcome is discarded, so the step result does not depend
on them. `ChildDialog` runs its embedded dialog (Go method promotion);
its `post` rewraps the `post` of the embedded dialog, since the wrapped value
shares the cells of the inner node. -/
def Dialog.Run (ts : ScreenSize) (oracle : List String → RunRes) :
    Dialog → String → StepResult
  | .MsgBox c text next, _ =>
    let r := oracle (msgBoxCmdArgs c ts text)
    match r.err with
    | some e => ⟨none, some e, .MsgBox c text next⟩
    | none => ⟨next, none, .MsgBox c text next⟩
  | .Pause c text seconds next, crumbs =>
    let r := oracle (pauseCmdArgs c ts text seconds crumbs)
    match r.err with
    | some e => ⟨none, some e, .Pause c text seconds next⟩
    | none => ⟨next, none, .Pause c text seconds next⟩
  | .Menu c text mh dk os, crumbs =>
    match os with
    | .error e => ⟨none, some e, .Menu c text mh dk (.error e)⟩
    | .ok opts =>
      let r := oracle (menuCmdArgs c ts text mh dk opts crumbs)
      match r.err with
      | some e => ⟨none, some e, .Menu c text mh dk (.ok opts)⟩
      | none =>
        match findOption opts r.out with
        | some mo =>
          ⟨some (.ChildDialog mo.Next (crumbOf mo) (.Menu c text mh dk (.ok opts)) mo),
           none, .Menu c text mh dk (.ok opts)⟩
        | none => ⟨none, some (.UnmatchedSelection r.out), .Menu c text mh dk (.ok opts)⟩
  | .InputBox c text value validate next, crumbs =>
    match value with
    | none => ⟨none, some (.PreconditionFailure "inputbox has no result ptr"),
               .InputBox c text none validate next⟩
    | some v =>
      match text with
      | none => ⟨none, some (.PreconditionFailure "inputbox has no text func"),
                 .InputBox c none (some v) validate next⟩
      | some t =>
        let r := oracle (inputCmdArgs c ts t v crumbs)
        match r.err with
        | some e => ⟨none, some e, .InputBox c (some t) (some v) validate next⟩
        | none => ⟨next, none, .InputBox c (some t) (some r.out) validate next⟩
  | .CheckListBox c text items validate next, crumbs =>
    if items.all (fun it => it.Value.isSome) then
      match text with
      | none => ⟨none, some (.PreconditionFailure "checklistbox has no text func"),
                 .CheckListBox c none items validate next⟩
      | some t =>
        let r := oracle (checkListCmdArgs c ts t items crumbs)
        match r.err with
        | some e => ⟨none, some e, .CheckListBox c (some t) items validate next⟩
        | none =>
          ⟨next, none,
           .CheckListBox c (some t) (updateCells 0 items (parseIndices r.out items.length))
             validate next⟩
    else
      ⟨none, some (.PreconditionFailure "checklistbox has no result ptr"),
       .CheckListBox c text items validate next⟩
  | .ProgramBox c text prog next, crumbs =>
    match prog with
    | none => ⟨none, some (.PreconditionFailure "programbox has no program callback set"),
               .ProgramBox c text none next⟩
    | some producerErr =>
      let r := oracle (programCmdArgs c ts text crumbs)
      match r.err with
      | some e => ⟨none, some e, .ProgramBox c text (some producerErr) next⟩
      | none =>
        match producerErr with
        | some pe => ⟨none, some pe, .ProgramBox c text (some (some pe)) next⟩
        | none => ⟨next, none, .ProgramBox c text (some none) next⟩
  | .ChildDialog d crumb parent mo, crumbs =>
    let res := Dialog.Run ts oracle d crumbs
    ⟨res.next, res.err, .ChildDialog res.post crumb parent mo⟩

/-! Helper lemmas about the matching loop, the argument loops and the
checklist parser. -/

/-- The matching loop returns the first option whose key equals `k`: if
`mo` sits at position `i` with `mo.Key = k` and every earlier option has a
different key, the loop returns `mo`. -/
theorem findOption_eq_of_first (opts : List MenuOption) (k : String) (i : Nat)
    (mo : MenuOption) (hget : opts.get? i = some mo) (hkey : mo.Key = k)
    (hfirst : ∀ j, j < i → ∀ x, opts.get? j = some x → x.Key ≠ k) :
    findOption opts k = some mo := by
  induction opts generalizing i with
  | nil => simp at hget
  | cons o rest ih =>
    cases i with
    | zero =>
      simp at hget
      subst hget
      simp [findOption, hkey]
    | succ i =>
      have ho : o.Key ≠ k := hfirst 0 (Nat.succ_pos i) o rfl
      simp only [findOption, if_neg ho]
      exact ih i hget (fun j hj x hx => hfirst (j + 1) (Nat.succ_lt_succ hj) x hx)

/-- The matching loop fails exactly when no option key equals `k`. -/
theorem findOption_eq_none (opts : List MenuOption) (k : String)
    (h : ∀ x ∈ opts, x.Key ≠ k) : findOption opts k = none := by
  induction opts with
  | nil => rfl
  | cons o rest ih =>
    simp only [findOption, if_neg (h o (List.mem_cons_self o rest))]
    exact ih (fun x hx => h x (List.mem_cons_of_mem o hx))

/-- The append loop over the options equals appending the flattened
key/label pairs. -/
theorem foldl_append_pairs (opts : List MenuOption) (args : List String) :
    opts.foldl (fun a mo => a ++ [mo.Key, mo.Text]) args
      = args ++ (opts.map (fun mo => [mo.Key, mo.Text])).flatten := by
  induction opts generalizing args with
  | nil => simp
  | cons o rest ih =>
    simp only [List.foldl_cons, List.map_cons, List.flatten_cons, ih, List.append_assoc]

/-- Membership in the selected-index set: an index is selected exactly when
it is in range and some token of the split parses to it. -/
theorem mem_parseIndices (k : String) (n : Nat) (i : Nat) :
    i ∈ parseIndices k n ↔ (i < n ∧ ∃ v ∈ splitTokens k, goAtoi v = some (i : Int)) := by
  unfold parseIndices
  rw [List.mem_filterMap]
  constructor
  · rintro ⟨v, hv, hf⟩
    cases ha : goAtoi v with
    | none => rw [ha] at hf; simp [selTokAux] at hf
    | some vi =>
      rw [ha] at hf
      by_cases hc : 0 ≤ vi ∧ vi < (n : Int)
      · simp only [selTokAux] at hf
        rw [if_pos hc] at hf
        have hvi : vi.toNat = i := Option.some.inj hf
        refine ⟨by omega, v, hv, ?_⟩
        rw [ha]
        have h0 : vi = (i : Int) := by omega
        rw [h0]
      · simp only [selTokAux] at hf
        rw [if_neg hc] at hf
        exact absurd hf (by simp)
  · rintro ⟨hin, v, hv, ha⟩
    refine ⟨v, hv, ?_⟩
    rw [ha]
    simp only [selTokAux]
    rw [if_pos ⟨by omega, by omega⟩]
    have h1 : ((i : Int)).toNat = i := by omega
    rw [h1]

/-- One cell after the update loop: position `i` of the updated list is
position `i` of the input with its cell set to membership of `start + i`. -/
theorem updateCells_get (items : List CheckListItem) (sel : List Nat)
    (start i : Nat) :
    (updateCells start items sel).get? i
      = (items.get? i).map
          (fun it => { it with Value := some (decide ((start + i) ∈ sel)) }) := by
  induction items generalizing start i with
  | nil => simp [updateCells]
  | cons it rest ih =>
    cases i with
    | zero => simp [updateCells]
    | succ i =>
      simp only [updateCells, List.get?_cons_succ]
      rw [ih (start + 1) i, show start + 1 + i = start + (i + 1) from by omega]

/-- The crumb text of a child binding is the explicitly supplied producer
value when present, and the option label otherwise. -/
theorem crumbOf_eq_getD (mo : MenuOption) : crumbOf mo = mo.CrumbText.getD mo.Text := by
  rcases mo with ⟨key, txt, nxt, ndk, ct⟩
  cases ct <;> simp [crumbOf]

/-- Spec-level description of the full Menu argument list: the
auxiliary-output-channel flag, the title flag and resolved title, the
default-item flag with its key only when a default key is configured, then
the menu flag, the breadcrumbs text (extra text after the separator only
when a text supplier is configured), height, width, the menu height
(explicitly configured, or the option count), and each option key/label
pair in order. -/
def menuArgsSpec (c : Common) (ts : ScreenSize) (text : Option String) (mh : Int)
    (dk : String) (opts : List MenuOption) (crumbs : String) : List String :=
  ["--output-fd", "3"]
  ++ ["--title", c.title]
  ++ (if dk ≠ "" then ["--default-item", dk] else [])
  ++ ["--menu",
      (match text with
       | none => crumbs
       | some t => crumbs ++ "\\n" ++ t),
      toString (c.height ts), toString (c.width ts),
      toString (if 0 < mh then mh else (opts.length : Int))]
  ++ (opts.map (fun mo => [mo.Key, mo.Text])).flatten

/-- C8: the sizing resolver returns a positive configured value verbatim,
the hard-coded default for zero, screen dimension plus the configured
value when negative and the terminal query succeeds, and the default when
negative and the query fails (for width and for height alike). -/
theorem sizing_resolution (c : Common) (ts : ScreenSize) :
    (0 < c.Width → Common.width c ts = c.Width)
    ∧ (c.Width = 0 → Common.width c ts = DEFAULT_WIDTH)
    ∧ (∀ w h : Int, c.Width < 0 → ts = some (w, h) → Common.width c ts = w + c.Width)
    ∧ (c.Width < 0 → ts = none → Common.width c ts = DEFAULT_WIDTH)
    ∧ (0 < c.Height → Common.height c ts = c.Height)
    ∧ (c.Height = 0 → Common.height c ts = DEFAULT_HEIGHT)
    ∧ (∀ w h : Int, c.Height < 0 → ts = some (w, h) → Common.height c ts = h + c.Height)
    ∧ (c.Height < 0 → ts = none → Common.height c ts = DEFAULT_HEIGHT) := by
  refine ⟨fun h => ?_, fun h => ?_, fun w h hn hts => ?_, fun hn hts => ?_,
          fun h => ?_, fun h => ?_, fun w h hn hts => ?_, fun hn hts => ?_⟩
  · unfold Common.width
    rw [if_pos h]
  · unfold Common.width
    rw [if_neg (by omega : ¬ c.Width > 0), if_neg (by omega : ¬ c.Width < 0)]
  · subst hts
    unfold Common.width
    rw [if_neg (by omega : ¬ c.Width > 0), if_pos hn]
  · subst hts
    unfold Common.width
    rw [if_neg (by omega : ¬ c.Width > 0), if_pos hn]
  · unfold Common.height
    rw [if_pos h]
  · unfold Common.height
    rw [if_neg (by omega : ¬ c.Height > 0), if_neg (by omega : ¬ c.Height < 0)]
  · subst hts
    unfold Common.height
    rw [if_neg (by omega : ¬ c.Height > 0), if_pos hn]
  · subst hts
    unfold Common.height
    rw [if_neg (by omega : ¬ c.Height > 0), if_pos hn]

/-- Witness for `sizing_resolution` at concrete configurations: 42 is kept
verbatim, 0 falls back to the default, -4 against a width-80 screen gives
76, and a negative height with a failing query gives the default. -/
theorem sizing_resolution_witness :
    Common.width ⟨"", "", 42, 0⟩ none = 42
    ∧ Common.width ⟨"", "", 0, 0⟩ (some (80, 24)) = DEFAULT_WIDTH
    ∧ Common.width ⟨"", "", -4, 0⟩ (some (80, 24)) = 76
    ∧ Common.height ⟨"", "", 0, -5⟩ none = DEFAULT_HEIGHT := by
  refine ⟨(sizing_resolution ⟨"", "", 42, 0⟩ none).1 (by decide),
          (sizing_resolution ⟨"", "", 0, 0⟩ (some (80, 24))).2.1 rfl, ?_, ?_⟩
  · have h := (sizing_resolution ⟨"", "", -4, 0⟩ (some (80, 24))).2.2.1 80 24 (by decide) rfl
    exact h.trans (by decide)
  · exact (sizing_resolution ⟨"", "", 0, -5⟩ none).2.2.2.2.2.2.2 (by decide) rfl

/-- C9: the command argument list built for a Menu invocation is exactly
the list described by the spec, in order. -/
theorem menu_args_exact (c : Common) (ts : ScreenSize) (text : Option String)
    (mh : Int) (dk : String) (opts : List MenuOption) (crumbs : String) :
    menuCmdArgs c ts text mh dk opts crumbs = menuArgsSpec c ts text mh dk opts crumbs := by
  unfold menuCmdArgs menuArgsSpec cmdArgs Common.runArgs menuHeight menuText
  simp only [foldl_append_pairs]
  by_cases hdk : dk = ""
  · simp [hdk]
  · simp [hdk]

/-- C10: running the child binding returned by a menu is running the
wrapped child dialog itself — the crumb text and the back-references to
the parent menu and option do not affect the produced next node or error. -/
theorem child_binding_runs_as_wrapped_child (ts : ScreenSize)
    (oracle : List String → RunRes) (d : Dialog) (crumb : String)
    (parent : Dialog) (mo : MenuOption) (crumbs : String) :
    (Dialog.Run ts oracle (.ChildDialog d crumb parent mo) crumbs).next
      = (Dialog.Run ts oracle d crumbs).next
    ∧ (Dialog.Run ts oracle (.ChildDialog d crumb parent mo) crumbs).err
      = (Dialog.Run ts oracle d crumbs).err := by
  exact ⟨rfl, rfl⟩

/-- C4: on a successful invocation the returned text is written into the
caller-owned cell unconditionally and navigation proceeds to the
configured sibling, whatever validator is configured (including none). -/
theorem input_writes_value_unconditionally (c : Common) (ts : ScreenSize)
    (oracle : List String → RunRes) (t v s : String)
    (validate : Option (String → String × Bool)) (next : Option Dialog)
    (crumbs : String)
    (horacle : oracle (inputCmdArgs c ts t v crumbs) = ⟨s, none⟩) :
    Dialog.Run ts oracle (.InputBox c (some t) (some v) validate next) crumbs
      = ⟨next, none, .InputBox c (some t) (some s) validate next⟩ := by
  simp only [Dialog.Run, horacle]

/-- Witness for `input_writes_value_unconditionally`: the spec scenario —
cell holding `old`, returned text `new`, and a validator rejecting `new` —
ends with the cell holding `new` and the sibling returned. -/
theorem input_writes_value_unconditionally_witness :
    Dialog.Run none (fun _ => ⟨"new", none⟩)
      (.InputBox ⟨"", "", 0, 0⟩ (some "t") (some "old")
        (some (fun s => ("", decide (s ≠ "new")))) none) "bc"
      = ⟨none, none,
         .InputBox ⟨"", "", 0, 0⟩ (some "t") (some "new")
           (some (fun s => ("", decide (s ≠ "new")))) none⟩ :=
  input_writes_value_unconditionally ⟨"", "", 0, 0⟩ none (fun _ => ⟨"new", none⟩)
    "t" "old" "new" (some (fun s => ("", decide (s ≠ "new")))) none "bc" rfl

/-- C1: when the options supplier succeeded and the invocation returns a
key equal to the key of the option at position `i`, every earlier option
having a different key (so it is the first match), the step returns a
child binding wrapping the next node of that option, whose crumb text is the
explicitly supplied producer value when present and the option label
otherwise, carrying the menu itself and the matched option as
back-references. -/
theorem menu_match_returns_child_binding (c : Common) (ts : ScreenSize)
    (oracle : List String → RunRes) (text : Option String) (mh : Int) (dk : String)
    (opts : List MenuOption) (crumbs k : String) (i : Nat) (mo : MenuOption)
    (horacle : oracle (menuCmdArgs c ts text mh dk opts crumbs) = ⟨k, none⟩)
    (hget : opts.get? i = some mo) (hkey : mo.Key = k)
    (hfirst : ∀ j, j < i → ∀ x, opts.get? j = some x → x.Key ≠ k) :
    Dialog.Run ts oracle (.Menu c text mh dk (.ok opts)) crumbs
      = ⟨some (.ChildDialog mo.Next (mo.CrumbText.getD mo.Text)
            (.Menu c text mh dk (.ok opts)) mo),
         none, .Menu c text mh dk (.ok opts)⟩ := by
  have hfind := findOption_eq_of_first opts k i mo hget hkey hfirst
  simp only [Dialog.Run, horacle, hfind, crumbOf_eq_getD]

/-- Witness for `menu_match_returns_child_binding`: the spec scenario with
options keyed 1 and 2 and returned key 2 — the binding wraps Y with
default crumb text B. -/
theorem menu_match_returns_child_binding_witness :
    Dialog.Run none (fun _ => ⟨"2", none⟩)
      (.Menu ⟨"", "", 0, 0⟩ none 0 ""
        (.ok [⟨"1", "A", .MsgBox ⟨"", "", 0, 0⟩ "X" none, "", none⟩,
              ⟨"2", "B", .MsgBox ⟨"", "", 0, 0⟩ "Y" none, "", none⟩])) "bc"
      = ⟨some (.ChildDialog (.MsgBox ⟨"", "", 0, 0⟩ "Y" none) "B"
            (.Menu ⟨"", "", 0, 0⟩ none 0 ""
              (.ok [⟨"1", "A", .MsgBox ⟨"", "", 0, 0⟩ "X" none, "", none⟩,
                    ⟨"2", "B", .MsgBox ⟨"", "", 0, 0⟩ "Y" none, "", none⟩]))
            ⟨"2", "B", .MsgBox ⟨"", "", 0, 0⟩ "Y" none, "", none⟩),
         none,
         .Menu ⟨"", "", 0, 0⟩ none 0 ""
           (.ok [⟨"1", "A", .MsgBox ⟨"", "", 0, 0⟩ "X" none, "", none⟩,
                 ⟨"2", "B", .MsgBox ⟨"", "", 0, 0⟩ "Y" none, "", none⟩])⟩ := by
  have h := menu_match_returns_child_binding ⟨"", "", 0, 0⟩ none (fun _ => ⟨"2", none⟩)
    none 0 ""
    [⟨"1", "A", .MsgBox ⟨"", "", 0, 0⟩ "X" none, "", none⟩,
     ⟨"2", "B", .MsgBox ⟨"", "", 0, 0⟩ "Y" none, "", none⟩] "bc" "2" 1
    ⟨"2", "B", .MsgBox ⟨"", "", 0, 0⟩ "Y" none, "", none⟩ rfl rfl rfl ?_
  · exact h
  · intro j hj x hx
    have hj0 : j = 0 := by omega
    subst hj0
    have hx0 : x = ⟨"1", "A", .MsgBox ⟨"", "", 0, 0⟩ "X" none, "", none⟩ :=
      (Option.some.inj hx).symm
    subst hx0
    decide

/-- C2: the returned key is matched against option keys by exact string
equality with the first match winning; when no option key equals the
returned key, the step fails with the unmatched-selection error and
returns no next node. -/
theorem menu_key_matching_and_unmatched (c : Common) (ts : ScreenSize)
    (oracle : List String → RunRes) (text : Option String) (mh : Int) (dk : String)
    (opts : List MenuOption) (crumbs k : String)
    (horacle : oracle (menuCmdArgs c ts text mh dk opts crumbs) = ⟨k, none⟩) :
    ((∀ x ∈ opts, x.Key ≠ k) →
      Dialog.Run ts oracle (.Menu c text mh dk (.ok opts)) crumbs
        = ⟨none, some (.UnmatchedSelection k), .Menu c text mh dk (.ok opts)⟩)
    ∧ (∀ i mo, opts.get? i = some mo → mo.Key = k →
        (∀ j, j < i → ∀ x, opts.get? j = some x → x.Key ≠ k) →
        (Dialog.Run ts oracle (.Menu c text mh dk (.ok opts)) crumbs).next
          = some (.ChildDialog mo.Next (mo.CrumbText.getD mo.Text)
              (.Menu c text mh dk (.ok opts)) mo)) := by
  constructor
  · intro hnone
    have hfind := findOption_eq_none opts k hnone
    simp only [Dialog.Run, horacle, hfind]
  · intro i mo hget hkey hfirst
    have hfind := findOption_eq_of_first opts k i mo hget hkey hfirst
    simp only [Dialog.Run, horacle, hfind, crumbOf_eq_getD]

/-- Witness for `menu_key_matching_and_unmatched`: returned key 9 against
keys 1 and 2 yields the unmatched-selection error and no next node. -/
theorem menu_key_matching_and_unmatched_witness :
    Dialog.Run none (fun _ => ⟨"9", none⟩)
      (.Menu ⟨"", "", 0, 0⟩ none 0 ""
        (.ok [⟨"1", "A", .MsgBox ⟨"", "", 0, 0⟩ "X" none, "", none⟩,
              ⟨"2", "B", .MsgBox ⟨"", "", 0, 0⟩ "Y" none, "", none⟩])) "bc"
      = ⟨none, some (.UnmatchedSelection "9"),
         .Menu ⟨"", "", 0, 0⟩ none 0 ""
           (.ok [⟨"1", "A", .MsgBox ⟨"", "", 0, 0⟩ "X" none, "", none⟩,
                 ⟨"2", "B", .MsgBox ⟨"", "", 0, 0⟩ "Y" none, "", none⟩])⟩ := by
  have h := (menu_key_matching_and_unmatched ⟨"", "", 0, 0⟩ none (fun _ => ⟨"9", none⟩)
    none 0 ""
    [⟨"1", "A", .MsgBox ⟨"", "", 0, 0⟩ "X" none, "", none⟩,
     ⟨"2", "B", .MsgBox ⟨"", "", 0, 0⟩ "Y" none, "", none⟩] "bc" "9" rfl).1 ?_
  · exact h
  · intro x hx
    rcases List.mem_cons.mp hx with h1 | hx
    · subst h1; decide
    rcases List.mem_cons.mp hx with h2 | hx
    · subst h2; decide
    · simp at hx

/-- C3: on a successful invocation the checklist trims the returned text,
splits it on whitespace, keeps exactly the tokens parsing as an integer in
`[0, n)` as the selected-index set (non-numeric and out-of-range tokens
dropped), and sets every item cell to the membership of its index in that
set; navigation proceeds to the configured sibling. -/
theorem checklist_parse_sets_cells (c : Common) (ts : ScreenSize)
    (oracle : List String → RunRes) (t : String) (items : List CheckListItem)
    (validate : Option (String → String × Bool)) (next : Option Dialog)
    (crumbs k : String)
    (hcells : ∀ it ∈ items, (CheckListItem.Value it).isSome = true)
    (horacle : oracle (checkListCmdArgs c ts t items crumbs) = ⟨k, none⟩) :
    Dialog.Run ts oracle (.CheckListBox c (some t) items validate next) crumbs
      = ⟨next, none,
         .CheckListBox c (some t)
           (updateCells 0 items (parseIndices k items.length)) validate next⟩
    ∧ (∀ i : Nat, i ∈ parseIndices k items.length ↔
        (i < items.length ∧ ∃ v ∈ splitTokens k, goAtoi v = some (i : Int)))
    ∧ (∀ i : Nat, (updateCells 0 items (parseIndices k items.length)).get? i
        = (items.get? i).map (fun it =>
            { it with Value := some (decide (i ∈ parseIndices k items.length)) })) := by
  refine ⟨?_, fun i => mem_parseIndices k items.length i,
          fun i => by simpa using updateCells_get items (parseIndices k items.length) 0 i⟩
  have hall : items.all (fun it => it.Value.isSome) = true := List.all_eq_true.mpr hcells
  simp only [Dialog.Run, hall, if_true, horacle]

/-- Witness for `checklist_parse_sets_cells`: the two spec scenarios on
three items — returned text with tokens 0 and 2 selects cells 0 and 2, and
a returned text with a non-numeric and an out-of-range token selects only
cell 0. -/
theorem checklist_parse_sets_cells_witness :
    Dialog.Run none (fun _ => ⟨" 0 2 ", none⟩)
      (.CheckListBox ⟨"", "", 0, 0⟩ (some "t")
        [⟨"a", some false⟩, ⟨"b", some true⟩, ⟨"c", some false⟩] none none) "bc"
      = ⟨none, none,
         .CheckListBox ⟨"", "", 0, 0⟩ (some "t")
           [⟨"a", some true⟩, ⟨"b", some false⟩, ⟨"c", some true⟩] none none⟩
    ∧ Dialog.Run none (fun _ => ⟨"0 foo 5", none⟩)
        (.CheckListBox ⟨"", "", 0, 0⟩ (some "t")
          [⟨"a", some false⟩, ⟨"b", some true⟩, ⟨"c", some true⟩] none none) "bc"
      = ⟨none, none,
         .CheckListBox ⟨"", "", 0, 0⟩ (some "t")
           [⟨"a", some true⟩, ⟨"b", some false⟩, ⟨"c", some false⟩] none none⟩ := by
  constructor
  · have h := (checklist_parse_sets_cells ⟨"", "", 0, 0⟩ none (fun _ => ⟨" 0 2 ", none⟩)
      "t" [⟨"a", some false⟩, ⟨"b", some true⟩, ⟨"c", some false⟩] none none "bc" " 0 2 "
      (by decide) rfl).1
    exact h.trans (by rfl)
  · have h := (checklist_parse_sets_cells ⟨"", "", 0, 0⟩ none (fun _ => ⟨"0 foo 5", none⟩)
      "t" [⟨"a", some false⟩, ⟨"b", some true⟩, ⟨"c", some true⟩] none none "bc" "0 foo 5"
      (by decide) rfl).1
    exact h.trans (by rfl)

/-- C5: an input node with an absent result cell or an absent text
supplier, and a checklist node with any absent item cell or an absent
text supplier, fail with the corresponding precondition-failure error and
no next node — for every oracle alike, so before any invocation is
attempted. -/
theorem missing_cell_or_text_precondition_failure (c : Common) (ts : ScreenSize)
    (validate : Option (String → String × Bool)) (next : Option Dialog)
    (crumbs : String) :
    (∀ (oracle : List String → RunRes) (text : Option String),
      Dialog.Run ts oracle (.InputBox c text none validate next) crumbs
        = ⟨none, some (.PreconditionFailure "inputbox has no result ptr"),
           .InputBox c text none validate next⟩)
    ∧ (∀ (oracle : List String → RunRes) (v : String),
      Dialog.Run ts oracle (.InputBox c none (some v) validate next) crumbs
        = ⟨none, some (.PreconditionFailure "inputbox has no text func"),
           .InputBox c none (some v) validate next⟩)
    ∧ (∀ (oracle : List String → RunRes) (text : Option String)
        (items : List CheckListItem),
        (∃ it ∈ items, it.Value = none) →
        Dialog.Run ts oracle (.CheckListBox c text items validate next) crumbs
          = ⟨none, some (.PreconditionFailure "checklistbox has no result ptr"),
             .CheckListBox c text items validate next⟩)
    ∧ (∀ (oracle : List String → RunRes) (items : List CheckListItem),
        (∀ it ∈ items, (CheckListItem.Value it).isSome = true) →
        Dialog.Run ts oracle (.CheckListBox c none items validate next) crumbs
          = ⟨none, some (.PreconditionFailure "checklistbox has no text func"),
             .CheckListBox c none items validate next⟩) := by
  refine ⟨fun oracle text => ?_, fun oracle v => ?_,
          fun oracle text items hmiss => ?_, fun oracle items hcells => ?_⟩
  · simp only [Dialog.Run]
  · simp only [Dialog.Run]
  · obtain ⟨it, hmem, hnone⟩ := hmiss
    have hall : items.all (fun it => it.Value.isSome) = false := by
      cases h : items.all (fun it => it.Value.isSome) with
      | true =>
        exfalso
        have := List.all_eq_true.mp h it hmem
        rw [hnone] at this
        simp at this
      | false => rfl
    simp only [Dialog.Run, hall, Bool.false_eq_true, if_false]
  · have hall : items.all (fun it => it.Value.isSome) = true := List.all_eq_true.mpr hcells
    simp only [Dialog.Run, hall, if_true]

/-- Witness for `missing_cell_or_text_precondition_failure`: each of the
four precondition failures at a concrete node, with an oracle that would
report success if it were ever invoked. -/
theorem missing_cell_or_text_precondition_failure_witness :
    Dialog.Run none (fun _ => ⟨"zz", none⟩)
      (.InputBox ⟨"", "", 0, 0⟩ (some "t") none none none) "bc"
      = ⟨none, some (.PreconditionFailure "inputbox has no result ptr"),
         .InputBox ⟨"", "", 0, 0⟩ (some "t") none none none⟩
    ∧ Dialog.Run none (fun _ => ⟨"zz", none⟩)
        (.InputBox ⟨"", "", 0, 0⟩ none (some "old") none none) "bc"
        = ⟨none, some (.PreconditionFailure "inputbox has no text func"),
           .InputBox ⟨"", "", 0, 0⟩ none (some "old") none none⟩
    ∧ Dialog.Run none (fun _ => ⟨"zz", none⟩)
        (.CheckListBox ⟨"", "", 0, 0⟩ (some "t") [⟨"a", some true⟩, ⟨"b", none⟩] none none) "bc"
        = ⟨none, some (.PreconditionFailure "checklistbox has no result ptr"),
           .CheckListBox ⟨"", "", 0, 0⟩ (some "t") [⟨"a", some true⟩, ⟨"b", none⟩] none none⟩
    ∧ Dialog.Run none (fun _ => ⟨"zz", none⟩)
        (.CheckListBox ⟨"", "", 0, 0⟩ none [⟨"a", some true⟩] none none) "bc"
        = ⟨none, some (.PreconditionFailure "checklistbox has no text func"),
           .CheckListBox ⟨"", "", 0, 0⟩ none [⟨"a", some true⟩] none none⟩ := by
  have h := missing_cell_or_text_precondition_failure ⟨"", "", 0, 0⟩ none none none "bc"
  exact ⟨h.1 (fun _ => ⟨"zz", none⟩) (some "t"),
         h.2.1 (fun _ => ⟨"zz", none⟩) "old",
         h.2.2.1 (fun _ => ⟨"zz", none⟩) (some "t") [⟨"a", some true⟩, ⟨"b", none⟩]
           ⟨⟨"b", none⟩, by decide, rfl⟩,
         h.2.2.2 (fun _ => ⟨"zz", none⟩) [⟨"a", some true⟩] (by decide)⟩

/-- C6: for a program-output node, a subprocess error is returned as is,
whatever the producer outcome; a producer error is returned when the
subprocess succeeded; the configured next node is returned only when both
succeeded. -/
theorem programbox_error_precedence (c : Common) (ts : ScreenSize)
    (text : String) (next : Option Dialog) (crumbs : String) :
    (∀ (oracle : List String → RunRes) (out : String) (e : Err) (p : Option Err),
      oracle (programCmdArgs c ts text crumbs) = ⟨out, some e⟩ →
      Dialog.Run ts oracle (.ProgramBox c text (some p) next) crumbs
        = ⟨none, some e, .ProgramBox c text (some p) next⟩)
    ∧ (∀ (oracle : List String → RunRes) (out : String) (pe : Err),
      oracle (programCmdArgs c ts text crumbs) = ⟨out, none⟩ →
      Dialog.Run ts oracle (.ProgramBox c text (some (some pe)) next) crumbs
        = ⟨none, some pe, .ProgramBox c text (some (some pe)) next⟩)
    ∧ (∀ (oracle : List String → RunRes) (out : String),
      oracle (programCmdArgs c ts text crumbs) = ⟨out, none⟩ →
      Dialog.Run ts oracle (.ProgramBox c text (some none) next) crumbs
        = ⟨next, none, .ProgramBox c text (some none) next⟩) := by
  refine ⟨fun oracle out e p horacle => ?_, fun oracle out pe horacle => ?_,
          fun oracle out horacle => ?_⟩
  · simp only [Dialog.Run, horacle]
  · simp only [Dialog.Run, horacle]
  · simp only [Dialog.Run, horacle]

/-- Witness for `programbox_error_precedence`: a failing subprocess masks
a failing producer; a failing producer is surfaced after a successful
subprocess; two successes yield the configured next node. -/
theorem programbox_error_precedence_witness :
    Dialog.Run none (fun _ => ⟨"", some (.SpawnFailure "exit 1")⟩)
      (.ProgramBox ⟨"", "", 0, 0⟩ "t" (some (some (.External "producer boom"))) none) "bc"
      = ⟨none, some (.SpawnFailure "exit 1"),
         .ProgramBox ⟨"", "", 0, 0⟩ "t" (some (some (.External "producer boom"))) none⟩
    ∧ Dialog.Run none (fun _ => ⟨"", none⟩)
        (.ProgramBox ⟨"", "", 0, 0⟩ "t" (some (some (.External "producer boom"))) none) "bc"
        = ⟨none, some (.External "producer boom"),
           .ProgramBox ⟨"", "", 0, 0⟩ "t" (some (some (.External "producer boom"))) none⟩
    ∧ Dialog.Run none (fun _ => ⟨"", none⟩)
        (.ProgramBox ⟨"", "", 0, 0⟩ "t" (some none)
          (some (.MsgBox ⟨"", "", 0, 0⟩ "X" none))) "bc"
        = ⟨some (.MsgBox ⟨"", "", 0, 0⟩ "X" none), none,
           .ProgramBox ⟨"", "", 0, 0⟩ "t" (some none)
             (some (.MsgBox ⟨"", "", 0, 0⟩ "X" none))⟩ := by
  refine ⟨(programbox_error_precedence ⟨"", "", 0, 0⟩ none "t" none "bc").1
            (fun _ => ⟨"", some (.SpawnFailure "exit 1")⟩) "" (.SpawnFailure "exit 1")
            (some (.External "producer boom")) rfl,
          (programbox_error_precedence ⟨"", "", 0, 0⟩ none "t" none "bc").2.1
            (fun _ => ⟨"", none⟩) "" (.External "producer boom") rfl,
          (programbox_error_precedence ⟨"", "", 0, 0⟩ none "t"
              (some (.MsgBox ⟨"", "", 0, 0⟩ "X" none)) "bc").2.2
            (fun _ => ⟨"", none⟩) "" rfl⟩

/-- C7: whenever a step returns an error — spawn failure, precondition
failure, unmatched selection, options-supplier failure or producer
failure, on any node variant — it returns no next node and leaves the
node, including every caller-owned result cell, unchanged. -/
theorem error_leaves_state_unchanged (ts : ScreenSize)
    (oracle : List String → RunRes) :
    ∀ (d : Dialog) (crumbs : String),
      (Dialog.Run ts oracle d crumbs).err.isSome = true →
      (Dialog.Run ts oracle d crumbs).next = none
        ∧ (Dialog.Run ts oracle d crumbs).post = d
  | .MsgBox c text next, crumbs, herr => by
    revert herr
    simp only [Dialog.Run]
    repeat' split
    all_goals intro herr
    all_goals first
      | exact ⟨rfl, rfl⟩
      | exact Bool.noConfusion herr
  | .Pause c text seconds next, crumbs, herr => by
    revert herr
    simp only [Dialog.Run]
    repeat' split
    all_goals intro herr
    all_goals first
      | exact ⟨rfl, rfl⟩
      | exact Bool.noConfusion herr
  | .Menu c text mh dk os, crumbs, herr => by
    revert herr
    simp only [Dialog.Run]
    repeat' split
    all_goals intro herr
    all_goals first
      | exact ⟨rfl, rfl⟩
      | exact Bool.noConfusion herr
  | .InputBox c text value validate next, crumbs, herr => by
    revert herr
    simp only [Dialog.Run]
    repeat' split
    all_goals intro herr
    all_goals first
      | exact ⟨rfl, rfl⟩
      | exact Bool.noConfusion herr
  | .CheckListBox c text items validate next, crumbs, herr => by
    revert herr
    simp only [Dialog.Run]
    repeat' split
    all_goals intro herr
    all_goals first
      | exact ⟨rfl, rfl⟩
      | exact Bool.noConfusion herr
  | .ProgramBox c text prog next, crumbs, herr => by
    revert herr
    simp only [Dialog.Run]
    repeat' split
    all_goals intro herr
    all_goals first
      | exact ⟨rfl, rfl⟩
      | exact Bool.noConfusion herr
  | .ChildDialog d crumb parent mo, crumbs, herr => by
    have ih := error_leaves_state_unchanged ts oracle d crumbs herr
    refine ⟨ih.1, ?_⟩
    show Dialog.ChildDialog (Dialog.Run ts oracle d crumbs).post crumb parent mo
        = Dialog.ChildDialog d crumb parent mo
    rw [ih.2]

/-- Witness for `error_leaves_state_unchanged`: a message box whose
invocation fails returns no next node and an unchanged node. -/
theorem error_leaves_state_unchanged_witness :
    (Dialog.Run none (fun _ => ⟨"", some (.SpawnFailure "boom")⟩)
        (.MsgBox ⟨"", "", 0, 0⟩ "t" none) "bc").next = none
    ∧ (Dialog.Run none (fun _ => ⟨"", some (.SpawnFailure "boom")⟩)
        (.MsgBox ⟨"", "", 0, 0⟩ "t" none) "bc").post = .MsgBox ⟨"", "", 0, 0⟩ "t" none :=
  error_leaves_state_unchanged none (fun _ => ⟨"", some (.SpawnFailure "boom")⟩)
    (.MsgBox ⟨"", "", 0, 0⟩ "t" none) "bc" (by rfl)

end DialogGo
